import Mathlib

/-!
# liboqs random-byte facade: `src/common/rand/rand.c`

A shallow embedding of the dispatch selector (`OQS_randombytes_switch_algorithm`,
`OQS_randombytes_custom_algorithm`, `OQS_randombytes`) and of the entropy sources
(`OQS_randombytes_system` in each of its build variants, `OQS_randombytes_openssl`).

Conventions of the embedding

* A C object of type `size_t`, `DWORD`, `int` is a `Nat` or an `Int`; a narrowing
  conversion is written with an explicit `%`.
* Memory is a total map from addresses to bytes; a pointer is an address.
* The operating system and library primitives the code calls are not part of the
  file.  Each is an oracle whose answer may depend on everything that has been
  called before (`Env`); every invocation is appended, with its arguments and its
  answer, to the `trace` of the `World`.
* `exit` is an `Outcome`, not a return.
-/

namespace OQS

/-! ## Memory, primitives and the world -/

/-- A byte of memory (`uint8_t`). -/
abbrev Byte := Fin 256

/-- Memory: the byte stored at every address. -/
abbrev Mem := Nat → Byte

/-- One invocation of an external primitive, with its arguments and the value it reported. -/
inductive Prim where
  | CryptAcquireContext (ret : Int)
  | CryptGenRandom (dwLen : Nat) (pbBuffer : Nat) (ret : Int)
  | CryptReleaseContext (ret : Int)
  | arc4random_buf (buf : Nat) (nbytes : Nat)
  | getentropy (buffer : Nat) (length : Nat) (ret : Int)
  | fopen (nonnull : Bool)
  | fread (ptr : Nat) (size : Nat) (nmemb : Nat) (ret : Nat)
  | ferror (ret : Int)
  | fclose (ret : Int)
  | RAND_status (ret : Int)
  | RAND_poll (ret : Int)
  | RAND_bytes (buf : Nat) (num : Int) (ret : Int)
  | perror (s : String)
  | fprintf_stderr (format : String)
  deriving DecidableEq, Repr

/-- Whether the invocation reported failure, per the documentation of each primitive:
a false `BOOL`, a non-zero `getentropy`, a null `FILE *`, an `fread` count below the
number of items asked for, a set stream error flag, a `RAND_bytes` result other than 1.
`CryptReleaseContext`, `fclose`, `RAND_status`, `RAND_poll` and the diagnostics report
nothing about a read. -/
def Prim.reportsFailure : Prim → Bool
  | .CryptAcquireContext ret => ret == 0
  | .CryptGenRandom _ _ ret => ret == 0
  | .CryptReleaseContext _ => false
  | .arc4random_buf _ _ => false
  | .getentropy _ _ ret => ret != 0
  | .fopen nonnull => !nonnull
  | .fread _ _ nmemb ret => decide (ret < nmemb)
  | .ferror ret => ret != 0
  | .fclose _ => false
  | .RAND_status _ => false
  | .RAND_poll _ => false
  | .RAND_bytes _ _ ret => ret != 1
  | .perror _ => false
  | .fprintf_stderr _ => false

/-- The behaviour of the external primitives.  `stream` is the sequence of bytes the
entropy source hands out, in order; every other field is the value the primitive
reports, as a function of the invocations made so far and of its arguments. -/
structure Env where
  stream : Nat → Byte
  CryptAcquireContext : List Prim → Int
  CryptGenRandom : List Prim → Nat → Nat → Int
  CryptReleaseContext : List Prim → Int
  getentropy : List Prim → Nat → Nat → Int
  fopen : List Prim → Bool
  fread : List Prim → Nat → Nat → Nat → Nat
  ferror : List Prim → Int
  fclose : List Prim → Int
  RAND_status : List Prim → Int
  RAND_poll : List Prim → Int
  RAND_bytes : List Prim → Nat → Int → Int

/-- The state the sources act on: memory, the number of stream bytes handed out so far,
and the primitive invocations made so far, oldest first. -/
structure World where
  mem : Mem
  delivered : Nat
  trace : List Prim

/-- The world at the start of a call: nothing delivered, nothing invoked. -/
def World.start (mem : Mem) : World := ⟨mem, 0, []⟩

/-- The primitive writes the next `n` bytes of the stream to `buf`, `buf + 1`, ... -/
def World.deliver (env : Env) (w : World) (buf n : Nat) : World :=
  { w with
    mem := fun a => if buf ≤ a ∧ a < buf + n then env.stream (w.delivered + (a - buf)) else w.mem a
    delivered := w.delivered + n }

/-- Record an invocation. -/
def World.log (w : World) (e : Prim) : World := { w with trace := w.trace ++ [e] }

/-- How a call of a `void` function ends. -/
inductive Outcome where
  | returned
  | exited (status : Nat)
  deriving DecidableEq, Repr

/-- The `EXIT_FAILURE` of `stdlib.h`. -/
def EXIT_FAILURE : Nat := 1

/-- The result of running a source: how it ended and the world it left. -/
structure Run where
  outcome : Outcome
  world : World

/-- The statement `exit(EXIT_FAILURE);`. -/
def exit_failure (w : World) : Run := ⟨.exited EXIT_FAILURE, w⟩

/-! ### The primitives -/

/-- The call `getentropy(buffer, length)`: on success (0) `length` bytes are written. -/
def getentropy (env : Env) (w : World) (buffer length : Nat) : Int × World :=
  let ret := env.getentropy w.trace buffer length
  let w1 := if ret = 0 then w.deliver env buffer length else w
  (ret, w1.log (.getentropy buffer length ret))


/-- The call `CryptAcquireContext(&hCryptProv, NULL, NULL, PROV_RSA_FULL, CRYPT_VERIFYCONTEXT)`. -/
def CryptAcquireContext (env : Env) (w : World) : Int × World :=
  let ret := env.CryptAcquireContext w.trace
  (ret, w.log (.CryptAcquireContext ret))

/-- The call `CryptGenRandom(hCryptProv, dwLen, pbBuffer)`: on success (a non-zero `BOOL`)
`dwLen` bytes are written. -/
def CryptGenRandom (env : Env) (w : World) (dwLen pbBuffer : Nat) : Int × World :=
  let ret := env.CryptGenRandom w.trace dwLen pbBuffer
  let w1 := if ret ≠ 0 then w.deliver env pbBuffer dwLen else w
  (ret, w1.log (.CryptGenRandom dwLen pbBuffer ret))

/-- The call `CryptReleaseContext(hCryptProv, 0)`. -/
def CryptReleaseContext (env : Env) (w : World) : Int × World :=
  let ret := env.CryptReleaseContext w.trace
  (ret, w.log (.CryptReleaseContext ret))

/-- The call `arc4random_buf(buf, nbytes)`: it cannot fail. -/
def arc4random_buf (env : Env) (w : World) (buf nbytes : Nat) : World :=
  (w.deliver env buf nbytes).log (.arc4random_buf buf nbytes)

/-- The call `fopen("/dev/urandom", "rb")`: whether the handle is non-null. -/
def fopen (env : Env) (w : World) : Bool × World :=
  let nonnull := env.fopen w.trace
  (nonnull, w.log (.fopen nonnull))

/-- The call `fread(ptr, size, nmemb, handle)`: it reports the number of items read, and
that many items of `size` bytes are written. -/
def fread (env : Env) (w : World) (ptr size nmemb : Nat) : Nat × World :=
  let ret := env.fread w.trace ptr size nmemb
  (ret, (w.deliver env ptr (size * ret)).log (.fread ptr size nmemb ret))

/-- The call `ferror(handle)`. -/
def ferror (env : Env) (w : World) : Int × World :=
  let ret := env.ferror w.trace
  (ret, w.log (.ferror ret))

/-- The call `fclose(handle)`. -/
def fclose (env : Env) (w : World) : Int × World :=
  let ret := env.fclose w.trace
  (ret, w.log (.fclose ret))

/-- The call `perror(s)`. -/
def perror (w : World) (s : String) : World := w.log (.perror s)

/-- The call `fprintf(stderr, format)`. -/
def fprintf_stderr (w : World) (format : String) : World := w.log (.fprintf_stderr format)

/-- The call `OQS_OSSL_FUNC(RAND_status)()`: the macro names the library function. -/
def RAND_status (env : Env) (w : World) : Int × World :=
  let ret := env.RAND_status w.trace
  (ret, w.log (.RAND_status ret))

/-- The call `OQS_OSSL_FUNC(RAND_poll)()`. -/
def RAND_poll (env : Env) (w : World) : Int × World :=
  let ret := env.RAND_poll w.trace
  (ret, w.log (.RAND_poll ret))

/-- The call `OQS_OSSL_FUNC(RAND_bytes)(buf, num)`: on success (1) `num` bytes are written. -/
def RAND_bytes (env : Env) (w : World) (buf : Nat) (num : Int) : Int × World :=
  let ret := env.RAND_bytes w.trace buf num
  let w1 := if ret = 1 then w.deliver env buf num.toNat else w
  (ret, w1.log (.RAND_bytes buf num ret))

/-! ## Build configuration -/

/-- The preprocessor symbols rand.c tests. -/
structure Build where
  _WIN32 : Bool
  __APPLE__ : Bool
  OQS_EMBEDDED_BUILD : Bool
  OQS_HAVE_GETENTROPY : Bool
  OQS_USE_OPENSSL : Bool
  deriving DecidableEq, Repr

/-! ## `OQS_randombytes_system` (rand.c 56-108) -/

/-- The conversion `(DWORD) bytes_to_read`: `DWORD` is an unsigned 32-bit integer. -/
def DWORD_cast (n : Nat) : Nat := n % 2 ^ 32

/-- The `_WIN32` variant (rand.c 58-65). -/
def OQS_randombytes_system_win32 (env : Env) (w : World)
    (random_array bytes_to_read : Nat) : Run :=
  let a := CryptAcquireContext env w
  if a.1 = 0 then
    exit_failure a.2
  else
    let g := CryptGenRandom env a.2 (DWORD_cast bytes_to_read) random_array
    if g.1 = 0 then
      exit_failure g.2
    else
      ⟨.returned, (CryptReleaseContext env g.2).2⟩

/-- The `__APPLE__` variant (rand.c 67-69). -/
def OQS_randombytes_system_apple (env : Env) (w : World)
    (random_array bytes_to_read : Nat) : Run :=
  ⟨.returned, arc4random_buf env w random_array bytes_to_read⟩

/-- The `OQS_EMBEDDED_BUILD` variant (rand.c 71-75). -/
def OQS_randombytes_system_embedded (w : World) : Run :=
  let w1 := fprintf_stderr w "OQS_randombytes_system is not available in an embedded build.\n"
  let w2 := fprintf_stderr w1
    "Call OQS_randombytes_custom_algorithm() to set a custom method for your system.\n"
  exit_failure w2


/-- The `OQS_HAVE_GETENTROPY` variant (rand.c 77-88). -/
def OQS_randombytes_system_getentropy (env : Env) (w : World)
    (random_array bytes_to_read : Nat) : Run :=
  if h : bytes_to_read > 256 then
    let r := getentropy env w random_array 256
    if r.1 ≠ 0 then
      exit_failure r.2
    else
      OQS_randombytes_system_getentropy env r.2 (random_array + 256) (bytes_to_read - 256)
  else
    let r := getentropy env w random_array bytes_to_read
    if r.1 ≠ 0 then
      exit_failure r.2
    else
      ⟨.returned, r.2⟩
termination_by bytes_to_read
decreasing_by omega

/-- The fallback variant reading `/dev/urandom` (rand.c 90-107). -/
def OQS_randombytes_system_urandom (env : Env) (w : World)
    (random_array bytes_to_read : Nat) : Run :=
  let handle := fopen env w
  if !handle.1 then
    exit_failure (perror handle.2 "OQS_randombytes")
  else
    let r := fread env handle.2 random_array 1 bytes_to_read
    let bytes_read := r.1
    if bytes_read < bytes_to_read then
      exit_failure (perror r.2 "OQS_randombytes")
    else
      let e := ferror env r.2
      if e.1 ≠ 0 then
        exit_failure (perror e.2 "OQS_randombytes")
      else
        ⟨.returned, (fclose env e.2).2⟩

/-- The function `OQS_randombytes_system`: the variant the preprocessor selects
(rand.c 57, 66, 70, 76, 89). -/
def OQS_randombytes_system (b : Build) (env : Env) (w : World)
    (random_array bytes_to_read : Nat) : Run :=
  if b._WIN32 then OQS_randombytes_system_win32 env w random_array bytes_to_read
  else if b.__APPLE__ then OQS_randombytes_system_apple env w random_array bytes_to_read
  else if b.OQS_EMBEDDED_BUILD then OQS_randombytes_system_embedded w
  else if b.OQS_HAVE_GETENTROPY then
    OQS_randombytes_system_getentropy env w random_array bytes_to_read
  else OQS_randombytes_system_urandom env w random_array bytes_to_read

/-! ## `OQS_randombytes_openssl` (rand.c 110-128) -/

/-- The `INT_MAX` of `limits.h` for a 32-bit `int`. -/
def INT_MAX : Nat := 2147483647

/-- The constant `OQS_RAND_POLL_RETRY` (rand.c 111). -/
def OQS_RAND_POLL_RETRY : Int := 3

/-- Modelled from the spec: the macro `SIZE_T_TO_INT_OR_EXIT` is defined in a header that is
not among the sources.  The spec (4.3): it converts the requested length into the numeric
type the library expects, and terminates the process when the length exceeds that
type's range.  `none` is the termination. -/
def SIZE_T_TO_INT_OR_EXIT (size_t_var : Nat) : Option Int :=
  if size_t_var ≤ INT_MAX then some (size_t_var : Int) else none

/-- The loop `do ... while (rep-- >= 0)` of `OQS_randombytes_openssl` (rand.c 115-120), entered
with the current value of `rep`. -/
def OQS_randombytes_openssl_loop (env : Env) (w : World) (rep : Int) : World :=
  let s := RAND_status env w
  if s.1 = 1 then
    s.2
  else
    let p := RAND_poll env s.2
    if rep ≥ 0 then
      OQS_randombytes_openssl_loop env p.2 (rep - 1)
    else
      p.2
termination_by (rep + 1).toNat
decreasing_by omega

/-- The function `OQS_randombytes_openssl` (rand.c 112-127). -/
def OQS_randombytes_openssl (env : Env) (w : World)
    (random_array bytes_to_read : Nat) : Run :=
  let rep := OQS_RAND_POLL_RETRY
  match SIZE_T_TO_INT_OR_EXIT bytes_to_read with
  | none => exit_failure w
  | some bytes_to_read_int =>
    let w1 := OQS_randombytes_openssl_loop env w rep
    let r := RAND_bytes env w1 random_array bytes_to_read_int
    if r.1 ≠ 1 then
      exit_failure (fprintf_stderr r.2 "No OpenSSL randomness retrieved. DRBG available?\n")
    else
      ⟨.returned, r.2⟩

/-! ## Strings and `strcasecmp` -/

/-- A C string: the bytes a `const char *` points to.  Reading stops at the first zero
byte, or at the end of the list, where the terminating zero byte stands. -/
abbrev CString := List Nat

/-- The C string of an ASCII literal. -/
def cstr (s : String) : CString := s.toList.map Char.toNat

/-- The `tolower` of the C locale. -/
def tolower (c : Nat) : Nat := if 65 ≤ c ∧ c ≤ 90 then c + 32 else c

/-- The `strcasecmp` of `strings.h` (`_stricmp` under `_WIN32`): the difference of the first
pair of bytes that differ after `tolower`, or 0 when the strings end without one. -/
def strcasecmp : CString → CString → Int
  | [], [] => 0
  | [], c2 :: _ => (tolower 0 : Int) - (tolower c2 : Int)
  | c1 :: _, [] => (tolower c1 : Int) - (tolower 0 : Int)
  | c1 :: s1, c2 :: s2 =>
    if tolower c1 ≠ tolower c2 then (tolower c1 : Int) - (tolower c2 : Int)
    else if c1 = 0 then 0
    else strcasecmp s1 s2

/-- The characters of a C string: what precedes the first zero byte. -/
def CString.content (s : CString) : List Nat := s.takeWhile (fun c => c ≠ 0)

/-- Two C strings are equal up to ASCII letter case. -/
abbrev eq_ignoring_case (s1 s2 : CString) : Prop :=
  s1.content.map tolower = s2.content.map tolower

/-! ## The dispatch selector (rand.c 20-54) -/

/-- Modelled from the spec: the identifier `OQS_RAND_alg_system` is defined in a header that
is not among the sources.  The spec (6): the recognized identifier `"system"`. -/
def OQS_RAND_alg_system : CString := cstr "system"

/-- Modelled from the spec: the identifier `OQS_RAND_alg_openssl` is defined in a header that
is not among the sources.  The spec (3): `"openssl"`, the name of the library. -/
def OQS_RAND_alg_openssl : CString := cstr "openssl"

/-- Modelled from the spec: the type `OQS_STATUS` is defined in a header that is not among the
sources.  The spec (6): `Status{Success, Error}`. -/
inductive OQS_STATUS where
  | OQS_ERROR
  | OQS_SUCCESS
  deriving DecidableEq, Repr

/-- A value of type `void (*)(uint8_t *, size_t)`: the null pointer, the address of one of
the two sources of this file, or the address of a function of the caller. -/
inductive FnPtr where
  | null
  | OQS_randombytes_system
  | OQS_randombytes_openssl
  | other (addr : Nat)
  deriving DecidableEq, Repr

/-- The pointer designates a function of this build. -/
def FnPtr.valid (b : Build) : FnPtr → Bool
  | .null => false
  | .OQS_randombytes_system => true
  | .OQS_randombytes_openssl => b.OQS_USE_OPENSSL
  | .other _ => true

/-- The file-scope state of rand.c. -/
structure DispatchState where
  oqs_randombytes_algorithm : FnPtr
  deriving DecidableEq, Repr

/-- The initializer of `oqs_randombytes_algorithm` (rand.c 25-31). -/
def DispatchState.initial (b : Build) : DispatchState :=
  if b.OQS_USE_OPENSSL then ⟨.OQS_randombytes_openssl⟩ else ⟨.OQS_randombytes_system⟩

/-- The function `OQS_randombytes_switch_algorithm` (rand.c 32-46): the status returned and
the state left. -/
def OQS_randombytes_switch_algorithm (b : Build) (st : DispatchState) (algorithm : CString) :
    OQS_STATUS × DispatchState :=
  if 0 = strcasecmp OQS_RAND_alg_system algorithm then
    (.OQS_SUCCESS, { st with oqs_randombytes_algorithm := .OQS_randombytes_system })
  else if 0 = strcasecmp OQS_RAND_alg_openssl algorithm then
    if b.OQS_USE_OPENSSL then
      (.OQS_SUCCESS, { st with oqs_randombytes_algorithm := .OQS_randombytes_openssl })
    else
      (.OQS_ERROR, st)
  else
    (.OQS_ERROR, st)

/-- The function `OQS_randombytes_custom_algorithm` (rand.c 48-50). -/
def OQS_randombytes_custom_algorithm (st : DispatchState) (algorithm_ptr : FnPtr) :
    DispatchState :=
  { st with oqs_randombytes_algorithm := algorithm_ptr }

/-- A call through a function pointer: the function called and the two arguments. -/
structure IndirectCall where
  target : FnPtr
  random_array : Nat
  bytes_to_read : Nat
  deriving DecidableEq, Repr

/-- The function `OQS_randombytes` (rand.c 52-54): the state it leaves and the call it makes.
A call through the null pointer has no defined behaviour: `none`. -/
def OQS_randombytes (st : DispatchState) (random_array bytes_to_read : Nat) :
    DispatchState × Option IndirectCall :=
  if st.oqs_randombytes_algorithm = .null then (st, none)
  else (st, some ⟨st.oqs_randombytes_algorithm, random_array, bytes_to_read⟩)

/-- Consecutive calls of `OQS_randombytes`, one per `(random_array, bytes_to_read)` pair: the
state left and the call each one makes, in order. -/
def OQS_randombytes_each (st : DispatchState) :
    List (Nat × Nat) → DispatchState × List (Option IndirectCall)
  | [] => (st, [])
  | (random_array, bytes_to_read) :: rest =>
    let r := OQS_randombytes st random_array bytes_to_read
    let rs := OQS_randombytes_each r.1 rest
    (rs.1, r.2 :: rs.2)

/-- A call of one of the three public functions. -/
inductive ApiCall where
  | switch_algorithm (algorithm : CString)
  | custom_algorithm (algorithm_ptr : FnPtr)
  | randombytes (random_array : Nat) (bytes_to_read : Nat)
  deriving DecidableEq, Repr

/-- The state a public call leaves. -/
def ApiCall.apply (b : Build) (st : DispatchState) : ApiCall → DispatchState
  | .switch_algorithm algorithm => (OQS_randombytes_switch_algorithm b st algorithm).2
  | .custom_algorithm algorithm_ptr => OQS_randombytes_custom_algorithm st algorithm_ptr
  | .randombytes random_array bytes_to_read => (OQS_randombytes st random_array bytes_to_read).1

/-- The state a sequence of public calls leaves. -/
def run_calls (b : Build) (st : DispatchState) (calls : List ApiCall) : DispatchState :=
  calls.foldl (ApiCall.apply b) st

/-! ## Reading a trace -/

/-- The `(buffer, length)` of every `getentropy` invocation of a trace, in order. -/
def getentropy_requests : List Prim → List (Nat × Nat)
  | [] => []
  | .getentropy buffer length _ :: t => (buffer, length) :: getentropy_requests t
  | _ :: t => getentropy_requests t

/-- Whether the invocation is a `RAND_poll`. -/
def Prim.isPoll : Prim → Bool
  | .RAND_poll _ => true
  | _ => false

/-- The `(buf, num, ret)` of every `RAND_bytes` invocation of a trace, in order. -/
def rand_bytes_calls : List Prim → List (Nat × Int × Int)
  | [] => []
  | .RAND_bytes buf num ret :: t => (buf, num, ret) :: rand_bytes_calls t
  | _ :: t => rand_bytes_calls t

/-- The `(dwLen, pbBuffer)` of every `CryptGenRandom` invocation of a trace, in order. -/
def genrandom_requests : List Prim → List (Nat × Nat)
  | [] => []
  | .CryptGenRandom dwLen pbBuffer _ :: t => (dwLen, pbBuffer) :: genrandom_requests t
  | _ :: t => genrandom_requests t

/-- The number of `RAND_poll` invocations of a trace. -/
def poll_count (t : List Prim) : Nat := t.countP Prim.isPoll

/-- What fail-stop means for a run `r` started in `w`: an invocation with a failure report is
one that was made before the run, or the run ended in `exit(EXIT_FAILURE)`. -/
def FailStop (w : World) (r : Run) : Prop :=
  ∀ e ∈ r.world.trace, e.reportsFailure = true → e ∈ w.trace ∨ r.outcome = .exited EXIT_FAILURE

/-! ## Concrete builds and environments -/

/-- A 64-bit Windows build without OpenSSL. -/
def Build.win64 : Build := ⟨true, false, false, false, false⟩

/-- A Unix build with `getentropy`, without OpenSSL. -/
def Build.unix_getentropy : Build := ⟨false, false, false, true, false⟩

/-- A Unix build without `getentropy`, with OpenSSL. -/
def Build.unix_openssl : Build := ⟨false, false, false, false, true⟩

/-- Memory holding zero everywhere. -/
def Mem.zero : Mem := fun _ => 0

/-- Every primitive succeeds; the stream is 0, 1, 2, ..., 255, 0, 1, ... -/
def Env.succeeding : Env where
  stream := fun i => Fin.ofNat i
  CryptAcquireContext := fun _ => 1
  CryptGenRandom := fun _ _ _ => 1
  CryptReleaseContext := fun _ => 1
  getentropy := fun _ _ _ => 0
  fopen := fun _ => true
  fread := fun _ _ _ nmemb => nmemb
  ferror := fun _ => 0
  fclose := fun _ => 0
  RAND_status := fun _ => 1
  RAND_poll := fun _ => 1
  RAND_bytes := fun _ _ _ => 1

/-- The third `getentropy` call fails. -/
def Env.third_getentropy_fails : Env :=
  { Env.succeeding with getentropy := fun t _ _ => if t.length = 2 then -1 else 0 }

/-- The call of `CryptGenRandom` fails. -/
def Env.genrandom_fails : Env :=
  { Env.succeeding with CryptGenRandom := fun _ _ _ => 0 }

/-- The call of `fread` comes one byte short. -/
def Env.short_read : Env :=
  { Env.succeeding with fread := fun _ _ _ nmemb => nmemb - 1 }

/-- The generator is never ready: `RAND_status` reports 0 at every check. -/
def Env.never_ready : Env :=
  { Env.succeeding with RAND_status := fun _ => 0 }

/-- The generator is never ready and `RAND_bytes` fails. -/
def Env.no_randomness : Env :=
  { Env.never_ready with RAND_bytes := fun _ _ _ => 0 }

/-! ## What the spec compares with -/

/-- The spec's single unbounded request (4.2, 8): one request of `L` bytes writes the first
`L` bytes of the stream to the buffer, in order, and nothing else. -/
def single_unbounded_request (stream : Nat → Byte) (mem : Mem) (random_array L : Nat) : Mem :=
  fun a => if random_array ≤ a ∧ a < random_array + L then stream (a - random_array) else mem a

/-- The requests the spec describes for a length `L` (4.2): chunks of 256 bytes at offsets
0, 256, 512, ... while more than 256 bytes remain, then one chunk of what remains. -/
def chunked_requests (random_array L : Nat) : List (Nat × Nat) :=
  (List.range ((L - 1) / 256)).map (fun i => (random_array + 256 * i, 256))
    ++ [(random_array + 256 * ((L - 1) / 256), L - 256 * ((L - 1) / 256))]

/-- Every request starts where the previous one ended, the first one at `start`. -/
def contiguous_from : Nat → List (Nat × Nat) → Prop
  | _, [] => True
  | start, (buffer, length) :: t => buffer = start ∧ contiguous_from (buffer + length) t

/-! ## Lemmas: the chunk plan -/

theorem chunked_requests_small (random_array L : Nat) (h : L ≤ 256) :
    chunked_requests random_array L = [(random_array, L)] := by
  have hk : (L - 1) / 256 = 0 := by omega
  simp [chunked_requests, hk]

theorem chunked_requests_large (random_array L : Nat) (h : 256 < L) :
    chunked_requests random_array L
      = (random_array, 256) :: chunked_requests (random_array + 256) (L - 256) := by
  have hk : (L - 1) / 256 = (L - 256 - 1) / 256 + 1 := by omega
  have hf : ((fun i => (random_array + 256 * i, 256)) ∘ Nat.succ : Nat → Nat × Nat)
      = fun i => (random_array + 256 + 256 * i, 256) := by
    funext i
    simp only [Function.comp, Nat.succ_eq_add_one, Prod.mk.injEq, and_true]
    omega
  have h1 : random_array + 256 * ((L - 256 - 1) / 256 + 1)
      = random_array + 256 + 256 * ((L - 256 - 1) / 256) := by omega
  have h2 : L - 256 * ((L - 256 - 1) / 256 + 1) = L - 256 - 256 * ((L - 256 - 1) / 256) := by
    omega
  simp only [chunked_requests, hk, List.range_succ_eq_map, List.map_cons, List.map_map, hf,
    Nat.mul_zero, Nat.add_zero, List.cons_append, h1, h2]

theorem chunked_requests_le (L : Nat) : ∀ random_array : Nat,
    ∀ q ∈ chunked_requests random_array L, q.2 ≤ 256 := by
  induction L using Nat.strong_induction_on with
  | _ L ih =>
    intro random_array q hq
    by_cases h : 256 < L
    · rw [chunked_requests_large _ _ h] at hq
      rcases List.mem_cons.1 hq with rfl | hq
      · exact Nat.le_refl _
      · exact ih (L - 256) (by omega) _ q hq
    · rw [chunked_requests_small _ _ (by omega)] at hq
      rcases List.mem_singleton.1 hq with rfl
      exact Nat.le_of_not_lt h

theorem chunked_requests_contiguous (L : Nat) : ∀ random_array : Nat,
    contiguous_from random_array (chunked_requests random_array L) := by
  induction L using Nat.strong_induction_on with
  | _ L ih =>
    intro random_array
    by_cases h : 256 < L
    · rw [chunked_requests_large _ _ h]
      exact ⟨rfl, ih (L - 256) (by omega) _⟩
    · rw [chunked_requests_small _ _ (by omega)]
      exact ⟨rfl, trivial⟩

theorem chunked_requests_sum (L : Nat) : ∀ random_array : Nat,
    ((chunked_requests random_array L).map Prod.snd).sum = L := by
  induction L using Nat.strong_induction_on with
  | _ L ih =>
    intro random_array
    by_cases h : 256 < L
    · rw [chunked_requests_large _ _ h, List.map_cons, List.sum_cons, ih (L - 256) (by omega)]
      omega
    · rw [chunked_requests_small _ _ (by omega)]
      simp

/-! ## Lemmas: reading the `getentropy` requests of a trace -/

theorem getentropy_requests_append (t1 t2 : List Prim) :
    getentropy_requests (t1 ++ t2) = getentropy_requests t1 ++ getentropy_requests t2 := by
  induction t1 with
  | nil => rfl
  | cons e t ih => cases e <;> simp [getentropy_requests, ih]

theorem getentropy_requests_map (l : List (Nat × Nat)) :
    getentropy_requests (l.map (fun q => Prim.getentropy q.1 q.2 0)) = l := by
  induction l with
  | nil => rfl
  | cons q t ih => simp [getentropy_requests, ih]

/-! ## Lemmas: what each primitive adds to the trace -/

@[simp] theorem World.log_trace (w : World) (e : Prim) : (w.log e).trace = w.trace ++ [e] := rfl

@[simp] theorem World.log_mem (w : World) (e : Prim) : (w.log e).mem = w.mem := rfl

@[simp] theorem World.log_delivered (w : World) (e : Prim) :
    (w.log e).delivered = w.delivered := rfl

@[simp] theorem World.deliver_trace (env : Env) (w : World) (buf n : Nat) :
    (w.deliver env buf n).trace = w.trace := rfl

@[simp] theorem exit_failure_outcome (w : World) :
    (exit_failure w).outcome = .exited EXIT_FAILURE := rfl

@[simp] theorem exit_failure_world (w : World) : (exit_failure w).world = w := rfl

@[simp] theorem perror_trace (w : World) (s : String) :
    (perror w s).trace = w.trace ++ [.perror s] := rfl

@[simp] theorem fprintf_stderr_trace (w : World) (s : String) :
    (fprintf_stderr w s).trace = w.trace ++ [.fprintf_stderr s] := rfl

@[simp] theorem getentropy_fst (env : Env) (w : World) (buffer length : Nat) :
    (getentropy env w buffer length).1 = env.getentropy w.trace buffer length := rfl

@[simp] theorem getentropy_trace (env : Env) (w : World) (buffer length : Nat) :
    (getentropy env w buffer length).2.trace
      = w.trace ++ [.getentropy buffer length (env.getentropy w.trace buffer length)] := by
  simp only [getentropy]
  split_ifs <;> rfl

@[simp] theorem CryptAcquireContext_fst (env : Env) (w : World) :
    (CryptAcquireContext env w).1 = env.CryptAcquireContext w.trace := rfl

@[simp] theorem CryptAcquireContext_trace (env : Env) (w : World) :
    (CryptAcquireContext env w).2.trace
      = w.trace ++ [.CryptAcquireContext (env.CryptAcquireContext w.trace)] := rfl

@[simp] theorem CryptGenRandom_fst (env : Env) (w : World) (dwLen pbBuffer : Nat) :
    (CryptGenRandom env w dwLen pbBuffer).1 = env.CryptGenRandom w.trace dwLen pbBuffer := rfl

@[simp] theorem CryptGenRandom_trace (env : Env) (w : World) (dwLen pbBuffer : Nat) :
    (CryptGenRandom env w dwLen pbBuffer).2.trace
      = w.trace ++ [.CryptGenRandom dwLen pbBuffer (env.CryptGenRandom w.trace dwLen pbBuffer)] := by
  simp only [CryptGenRandom]
  split_ifs <;> rfl

@[simp] theorem CryptReleaseContext_trace (env : Env) (w : World) :
    (CryptReleaseContext env w).2.trace
      = w.trace ++ [.CryptReleaseContext (env.CryptReleaseContext w.trace)] := rfl

@[simp] theorem arc4random_buf_trace (env : Env) (w : World) (buf nbytes : Nat) :
    (arc4random_buf env w buf nbytes).trace = w.trace ++ [.arc4random_buf buf nbytes] := rfl

@[simp] theorem fopen_fst (env : Env) (w : World) : (fopen env w).1 = env.fopen w.trace := rfl

@[simp] theorem fopen_trace (env : Env) (w : World) :
    (fopen env w).2.trace = w.trace ++ [.fopen (env.fopen w.trace)] := rfl

@[simp] theorem fread_fst (env : Env) (w : World) (ptr size nmemb : Nat) :
    (fread env w ptr size nmemb).1 = env.fread w.trace ptr size nmemb := rfl

@[simp] theorem fread_trace (env : Env) (w : World) (ptr size nmemb : Nat) :
    (fread env w ptr size nmemb).2.trace
      = w.trace ++ [.fread ptr size nmemb (env.fread w.trace ptr size nmemb)] := rfl

@[simp] theorem ferror_fst (env : Env) (w : World) : (ferror env w).1 = env.ferror w.trace := rfl

@[simp] theorem ferror_trace (env : Env) (w : World) :
    (ferror env w).2.trace = w.trace ++ [.ferror (env.ferror w.trace)] := rfl

@[simp] theorem fclose_trace (env : Env) (w : World) :
    (fclose env w).2.trace = w.trace ++ [.fclose (env.fclose w.trace)] := rfl

@[simp] theorem RAND_status_fst (env : Env) (w : World) :
    (RAND_status env w).1 = env.RAND_status w.trace := rfl

@[simp] theorem RAND_status_trace (env : Env) (w : World) :
    (RAND_status env w).2.trace = w.trace ++ [.RAND_status (env.RAND_status w.trace)] := rfl

@[simp] theorem RAND_poll_trace (env : Env) (w : World) :
    (RAND_poll env w).2.trace = w.trace ++ [.RAND_poll (env.RAND_poll w.trace)] := rfl

@[simp] theorem RAND_bytes_fst (env : Env) (w : World) (buf : Nat) (num : Int) :
    (RAND_bytes env w buf num).1 = env.RAND_bytes w.trace buf num := rfl

@[simp] theorem RAND_bytes_trace (env : Env) (w : World) (buf : Nat) (num : Int) :
    (RAND_bytes env w buf num).2.trace
      = w.trace ++ [.RAND_bytes buf num (env.RAND_bytes w.trace buf num)] := by
  simp only [RAND_bytes]
  split_ifs <;> rfl

/-! ## Lemmas: the getentropy variant, every behaviour -/

theorem mem_drop_of_le {α : Type} {l : List α} {e : α} {m n : Nat} (h : m ≤ n)
    (he : e ∈ l.drop n) : e ∈ l.drop m := by
  have hd : l.drop n = (l.drop m).drop (n - m) := by
    rw [List.drop_drop]
    congr 1
    omega
  rw [hd] at he
  exact List.mem_of_mem_drop he

theorem getentropy_snd_ok (env : Env) (w : World) (buffer length : Nat)
    (h : env.getentropy w.trace buffer length = 0) :
    (getentropy env w buffer length).2
      = (w.deliver env buffer length).log (.getentropy buffer length 0) := by
  simp [getentropy, h]

theorem deliver_twice (env : Env) (w : World) (e : Prim) (random_array L : Nat)
    (h : 256 < L) :
    (fun a => if random_array + 256 ≤ a ∧ a < random_array + 256 + (L - 256)
        then env.stream (((w.deliver env random_array 256).log e).delivered
          + (a - (random_array + 256)))
        else ((w.deliver env random_array 256).log e).mem a)
      = (fun a => if random_array ≤ a ∧ a < random_array + L
          then env.stream (w.delivered + (a - random_array)) else w.mem a) := by
  funext a
  simp only [World.log, World.deliver]
  by_cases c1 : random_array + 256 ≤ a ∧ a < random_array + 256 + (L - 256)
  · have c2 : random_array ≤ a ∧ a < random_array + L := by omega
    have c3 : w.delivered + 256 + (a - (random_array + 256))
        = w.delivered + (a - random_array) := by omega
    simp only [c1, c2, c3, and_self, ↓reduceIte]
  · by_cases c4 : random_array ≤ a ∧ a < random_array + 256
    · have c2 : random_array ≤ a ∧ a < random_array + L := by omega
      simp only [c1, c2, c4, and_self, ↓reduceIte]
    · have c2 : ¬ (random_array ≤ a ∧ a < random_array + L) := by omega
      simp only [c1, c2, c4, ↓reduceIte]

/-- The getentropy variant under every behaviour of `getentropy`: either an invocation made
by the call reported failure, or the call returned, wrote the next `L` stream bytes to the
buffer and nothing else, and made exactly the chunked requests. -/
theorem getentropy_variant_cases (env : Env) (L : Nat) : ∀ (w : World) (random_array : Nat),
    (∃ e ∈ (OQS_randombytes_system_getentropy env w random_array L).world.trace.drop
        w.trace.length, e.reportsFailure = true) ∨
    ((OQS_randombytes_system_getentropy env w random_array L).outcome = .returned ∧
      (OQS_randombytes_system_getentropy env w random_array L).world.mem
        = (fun a => if random_array ≤ a ∧ a < random_array + L
            then env.stream (w.delivered + (a - random_array)) else w.mem a) ∧
      (OQS_randombytes_system_getentropy env w random_array L).world.delivered
        = w.delivered + L ∧
      (OQS_randombytes_system_getentropy env w random_array L).world.trace
        = w.trace ++ (chunked_requests random_array L).map
            (fun q => Prim.getentropy q.1 q.2 0)) := by
  induction L using Nat.strong_induction_on with
  | _ L ih =>
    intro w random_array
    rw [OQS_randombytes_system_getentropy]
    by_cases h : 256 < L
    · simp only [gt_iff_lt, h, ↓reduceDIte, getentropy_fst]
      by_cases hr : env.getentropy w.trace random_array 256 = 0
      · simp only [hr, ne_eq, not_true_eq_false, ↓reduceIte]
        rw [getentropy_snd_ok env w random_array 256 hr]
        rcases ih (L - 256) (by omega)
          ((w.deliver env random_array 256).log (.getentropy random_array 256 0))
          (random_array + 256) with ⟨e, he, hf⟩ | ⟨h1, h2, h3, h4⟩
        · refine Or.inl ⟨e, mem_drop_of_le ?_ he, hf⟩
          simp
        · refine Or.inr ⟨h1, ?_, ?_, ?_⟩
          · rw [h2]
            exact deliver_twice env w _ random_array L h
          · rw [h3]
            simp only [World.log, World.deliver]
            omega
          · rw [h4, chunked_requests_large _ _ h]
            simp
      · refine Or.inl ⟨.getentropy random_array 256 (env.getentropy w.trace random_array 256),
          ?_, ?_⟩
        · simp [hr]
        · simp [Prim.reportsFailure, hr]
    · simp only [gt_iff_lt, h, ↓reduceDIte, getentropy_fst]
      by_cases hr : env.getentropy w.trace random_array L = 0
      · simp only [hr, ne_eq, not_true_eq_false, ↓reduceIte]
        rw [getentropy_snd_ok env w random_array L hr,
          chunked_requests_small _ _ (Nat.le_of_not_lt h)]
        refine Or.inr ⟨?_, ?_, ?_, ?_⟩
        · trivial
        · rfl
        · rfl
        · simp
      · refine Or.inl ⟨.getentropy random_array L (env.getentropy w.trace random_array L),
          ?_, ?_⟩
        · simp [hr]
        · simp [Prim.reportsFailure, hr]

/-- When no invocation made by the call reports failure, the getentropy variant returns, has
written the first `L` stream bytes to the buffer and nothing else, and has made exactly the
chunked requests. -/
theorem getentropy_variant_ok (env : Env) (mem : Mem) (random_array L : Nat)
    (hok : ∀ e ∈ (OQS_randombytes_system_getentropy env (World.start mem)
      random_array L).world.trace, e.reportsFailure = false) :
    (OQS_randombytes_system_getentropy env (World.start mem) random_array L).outcome
      = .returned ∧
    (OQS_randombytes_system_getentropy env (World.start mem) random_array L).world.mem
      = single_unbounded_request env.stream mem random_array L ∧
    (OQS_randombytes_system_getentropy env (World.start mem) random_array L).world.trace
      = (chunked_requests random_array L).map (fun q => Prim.getentropy q.1 q.2 0) := by
  rcases getentropy_variant_cases env L (World.start mem) random_array with
    ⟨e, he, hf⟩ | ⟨h1, h2, -, h4⟩
  · simp only [World.start, List.length_nil, List.drop_zero] at he
    rw [hok e he] at hf
    exact absurd hf (by decide)
  · refine ⟨h1, ?_, ?_⟩
    · rw [h2]
      funext a
      simp [single_unbounded_request, World.start]
    · rw [h4]
      simp [World.start]

/-! ## Lemmas: fail-stop -/

theorem failStop_win32 (env : Env) (w : World) (random_array bytes_to_read : Nat) :
    FailStop w (OQS_randombytes_system_win32 env w random_array bytes_to_read) := by
  intro e he hf
  unfold OQS_randombytes_system_win32 at he ⊢
  by_cases ha : env.CryptAcquireContext w.trace = 0
  · simp [ha]
  · by_cases hg : env.CryptGenRandom (w.trace ++ [.CryptAcquireContext
        (env.CryptAcquireContext w.trace)]) (DWORD_cast bytes_to_read) random_array = 0
    · simp [ha, hg]
    · left
      simp only [CryptAcquireContext_fst, ha, ↓reduceIte, CryptGenRandom_fst,
        CryptAcquireContext_trace, hg, CryptReleaseContext_trace, CryptGenRandom_trace,
        List.append_assoc, List.mem_append, List.mem_cons, List.mem_singleton,
        List.not_mem_nil, or_false] at he
      rcases he with he | rfl | rfl | rfl
      · exact he
      · simp [Prim.reportsFailure, ha] at hf
      · simp [Prim.reportsFailure, hg] at hf
      · simp [Prim.reportsFailure] at hf

theorem failStop_apple (env : Env) (w : World) (random_array bytes_to_read : Nat) :
    FailStop w (OQS_randombytes_system_apple env w random_array bytes_to_read) := by
  intro e he hf
  simp only [OQS_randombytes_system_apple, arc4random_buf_trace,
    List.mem_append, List.mem_singleton] at he
  rcases he with he | rfl
  · exact Or.inl he
  · simp [Prim.reportsFailure] at hf

theorem failStop_embedded (w : World) : FailStop w (OQS_randombytes_system_embedded w) :=
  fun _ _ _ => Or.inr rfl

theorem failStop_urandom (env : Env) (w : World) (random_array bytes_to_read : Nat) :
    FailStop w (OQS_randombytes_system_urandom env w random_array bytes_to_read) := by
  intro e he hf
  unfold OQS_randombytes_system_urandom at he ⊢
  by_cases ho : env.fopen w.trace = true
  · by_cases hr : env.fread (w.trace ++ [.fopen true]) random_array 1 bytes_to_read
        < bytes_to_read
    · simp [ho, hr]
    · by_cases hx : env.ferror (w.trace ++ [.fopen true,
          .fread random_array 1 bytes_to_read
            (env.fread (w.trace ++ [.fopen true]) random_array 1 bytes_to_read)]) = 0
      · left
        simp only [fopen_fst, ho, Bool.not_true, Bool.false_eq_true, ↓reduceIte, fread_fst,
          fopen_trace, hr, ferror_fst, fread_trace, List.append_assoc, List.singleton_append,
          hx, ne_eq, not_true_eq_false, fclose_trace, ferror_trace, List.mem_append,
          List.mem_cons, List.mem_singleton, List.not_mem_nil, or_false] at he
        rcases he with he | (rfl | rfl) | rfl | rfl
        · exact he
        · simp [Prim.reportsFailure] at hf
        · simp only [Prim.reportsFailure, decide_eq_true_eq] at hf
          exact absurd hf hr
        · simp [Prim.reportsFailure] at hf
        · simp [Prim.reportsFailure] at hf
      · simp [ho, hr, hx]
  · simp [ho]

theorem failStop_getentropy (env : Env) (L : Nat) : ∀ (w : World) (random_array : Nat),
    FailStop w (OQS_randombytes_system_getentropy env w random_array L) := by
  induction L using Nat.strong_induction_on with
  | _ L ih =>
    intro w random_array e he hf
    rw [OQS_randombytes_system_getentropy] at he ⊢
    by_cases h : 256 < L
    · simp only [gt_iff_lt, h, ↓reduceDIte, getentropy_fst] at he ⊢
      by_cases hr : env.getentropy w.trace random_array 256 = 0
      · simp only [hr, ne_eq, not_true_eq_false, ↓reduceIte] at he ⊢
        rcases ih (L - 256) (by omega) _ _ e he hf with h1 | h1
        · simp only [getentropy_trace, List.mem_append, List.mem_singleton] at h1
          rcases h1 with h1 | rfl
          · exact Or.inl h1
          · simp [Prim.reportsFailure, hr] at hf
        · exact Or.inr h1
      · simp [hr]
    · simp only [gt_iff_lt, h, ↓reduceDIte, getentropy_fst] at he ⊢
      by_cases hr : env.getentropy w.trace random_array L = 0
      · simp only [hr, ne_eq, not_true_eq_false, ↓reduceIte, getentropy_trace,
          List.mem_append, List.mem_singleton] at he ⊢
        rcases he with h1 | rfl
        · exact Or.inl h1
        · simp [Prim.reportsFailure] at hf
      · simp [hr]

theorem failStop_system (b : Build) (env : Env) (w : World) (random_array bytes_to_read : Nat) :
    FailStop w (OQS_randombytes_system b env w random_array bytes_to_read) := by
  unfold OQS_randombytes_system
  split_ifs
  · exact failStop_win32 env w random_array bytes_to_read
  · exact failStop_apple env w random_array bytes_to_read
  · exact failStop_embedded w
  · exact failStop_getentropy env bytes_to_read w random_array
  · exact failStop_urandom env w random_array bytes_to_read

/-! ## Lemmas: the OpenSSL source -/

theorem rand_bytes_calls_append (t1 t2 : List Prim) :
    rand_bytes_calls (t1 ++ t2) = rand_bytes_calls t1 ++ rand_bytes_calls t2 := by
  induction t1 with
  | nil => rfl
  | cons e t ih => cases e <;> simp [rand_bytes_calls, ih]

theorem poll_count_append (t1 t2 : List Prim) :
    poll_count (t1 ++ t2) = poll_count t1 + poll_count t2 := by
  simp [poll_count, List.countP_append]

/-- The readiness loop entered with `rep` invokes no `RAND_bytes`, and invokes `RAND_poll` at
most `rep + 2` times (once when `rep` is negative); it invokes it exactly that often when
`RAND_status` never reports 1. -/
theorem openssl_loop_spec (env : Env) : ∀ (n : Nat) (rep : Int) (w : World),
    (rep + 1).toNat = n →
      rand_bytes_calls (OQS_randombytes_openssl_loop env w rep).trace
        = rand_bytes_calls w.trace ∧
      poll_count (OQS_randombytes_openssl_loop env w rep).trace
        ≤ poll_count w.trace + (n + 1) ∧
      ((∀ t, env.RAND_status t ≠ 1) →
        poll_count (OQS_randombytes_openssl_loop env w rep).trace
          = poll_count w.trace + (n + 1)) := by
  intro n
  induction n with
  | zero =>
    intro rep w hn
    have hrep : ¬ rep ≥ 0 := by omega
    rw [OQS_randombytes_openssl_loop]
    by_cases hs : env.RAND_status w.trace = 1
    · refine ⟨?_, ?_, fun hne => absurd hs (hne _)⟩
      · simp [hs, rand_bytes_calls_append, rand_bytes_calls]
      · simp [hs, poll_count_append, poll_count, Prim.isPoll]
    · refine ⟨?_, ?_, fun _ => ?_⟩
      · simp [hs, hrep, rand_bytes_calls_append, rand_bytes_calls]
      · simp [hs, hrep, poll_count_append, poll_count, Prim.isPoll]
      · simp [hs, hrep, poll_count_append, poll_count, Prim.isPoll]
  | succ n ih =>
    intro rep w hn
    have hrep : rep ≥ 0 := by omega
    rw [OQS_randombytes_openssl_loop]
    by_cases hs : env.RAND_status w.trace = 1
    · refine ⟨?_, ?_, fun hne => absurd hs (hne _)⟩
      · simp [hs, rand_bytes_calls_append, rand_bytes_calls]
      · simp [hs, poll_count_append, poll_count, Prim.isPoll]
    · obtain ⟨h1, h2, h3⟩ := ih (rep - 1) (RAND_poll env (RAND_status env w).2).2 (by omega)
      simp only [RAND_status_fst, hs, ↓reduceIte, hrep]
      simp only [RAND_poll_trace, RAND_status_trace, rand_bytes_calls_append,
        poll_count_append] at h1 h2 h3
      refine ⟨?_, ?_, fun hne => ?_⟩
      · rw [h1]
        simp [rand_bytes_calls]
      · refine le_trans h2 ?_
        simp [poll_count, Prim.isPoll]
        omega
      · rw [h3 hne]
        simp [poll_count, Prim.isPoll]
        omega

/-! ## Lemmas: `strcasecmp` -/

theorem tolower_eq_zero (c : Nat) : tolower c = 0 ↔ c = 0 := by
  unfold tolower
  split_ifs with h
  · constructor
    · intro h1
      exact absurd h1 (by simp)
    · intro h1
      omega
  · rfl

theorem tolower_zero : tolower 0 = 0 := by decide

theorem content_nil : CString.content [] = [] := rfl

theorem content_cons_zero (s : CString) : CString.content (0 :: s) = [] := by
  simp [CString.content]

theorem content_cons_pos (c : Nat) (s : CString) (h : c ≠ 0) :
    CString.content (c :: s) = c :: CString.content s := by
  simp [CString.content, List.takeWhile_cons, h]

/-- The result of `strcasecmp` is zero exactly for strings equal up to ASCII letter case. -/
theorem strcasecmp_eq_zero (s1 : CString) : ∀ s2 : CString,
    strcasecmp s1 s2 = 0 ↔ eq_ignoring_case s1 s2 := by
  induction s1 with
  | nil =>
    intro s2
    cases s2 with
    | nil => simp [strcasecmp]
    | cons c2 t2 =>
      by_cases h2 : c2 = 0
      · subst h2
        simp [strcasecmp, eq_ignoring_case, content_cons_zero, content_nil, tolower_zero]
      · have ht : tolower c2 ≠ 0 := fun h => h2 ((tolower_eq_zero c2).1 h)
        simp only [strcasecmp, tolower_zero, eq_ignoring_case, content_nil,
          content_cons_pos c2 t2 h2, List.map_nil, List.map_cons]
        constructor
        · intro h
          omega
        · intro h
          exact absurd h (by simp)
  | cons c1 t1 ih =>
    intro s2
    cases s2 with
    | nil =>
      by_cases h1 : c1 = 0
      · subst h1
        simp [strcasecmp, eq_ignoring_case, content_cons_zero, content_nil, tolower_zero]
      · have ht : tolower c1 ≠ 0 := fun h => h1 ((tolower_eq_zero c1).1 h)
        simp only [strcasecmp, tolower_zero, eq_ignoring_case, content_nil,
          content_cons_pos c1 t1 h1, List.map_nil, List.map_cons]
        constructor
        · intro h
          omega
        · intro h
          exact absurd h (by simp)
    | cons c2 t2 =>
      by_cases hne : tolower c1 = tolower c2
      · by_cases h1 : c1 = 0
        · subst h1
          have h2 : c2 = 0 := (tolower_eq_zero c2).1 (by rw [← hne]; exact tolower_zero)
          subst h2
          simp [strcasecmp, eq_ignoring_case, content_cons_zero]
        · have h2 : c2 ≠ 0 := fun h =>
            h1 ((tolower_eq_zero c1).1 (by rw [hne, h]; exact tolower_zero))
          simp only [strcasecmp, hne, ne_eq, not_true_eq_false, ↓reduceIte, h1,
            eq_ignoring_case, content_cons_pos c1 t1 h1, content_cons_pos c2 t2 h2,
            List.map_cons, List.cons.injEq, true_and]
          exact ih t2
      · have hd : (tolower c1 : Int) - (tolower c2 : Int) ≠ 0 := by omega
        simp only [strcasecmp, ne_eq, hne, not_false_eq_true, ↓reduceIte, hd, false_iff,
          eq_ignoring_case]
        intro h
        by_cases h1 : c1 = 0
        · subst h1
          by_cases h2 : c2 = 0
          · subst h2
            exact hne rfl
          · simp [content_cons_zero, content_cons_pos c2 t2 h2] at h
        · by_cases h2 : c2 = 0
          · subst h2
            simp [content_cons_zero, content_cons_pos c1 t1 h1] at h
          · simp only [content_cons_pos c1 t1 h1, content_cons_pos c2 t2 h2, List.map_cons,
              List.cons.injEq] at h
            exact hne h.1

theorem system_ne_openssl : ¬ eq_ignoring_case OQS_RAND_alg_system OQS_RAND_alg_openssl := by
  decide

/-! ## Lemmas: the dispatch selector -/

theorem switch_algorithm_valid (b : Build) (st : DispatchState) (algorithm : CString)
    (h : st.oqs_randombytes_algorithm.valid b = true) :
    (OQS_randombytes_switch_algorithm b st algorithm).2.oqs_randombytes_algorithm.valid b
      = true := by
  unfold OQS_randombytes_switch_algorithm
  split_ifs with h1 h2 h3
  · rfl
  · exact h3
  · exact h
  · exact h

theorem run_calls_valid (b : Build) (calls : List ApiCall) : ∀ st : DispatchState,
    st.oqs_randombytes_algorithm.valid b = true →
    (∀ p, ApiCall.custom_algorithm p ∈ calls → p.valid b = true) →
    (run_calls b st calls).oqs_randombytes_algorithm.valid b = true := by
  induction calls with
  | nil => intro st h _; exact h
  | cons c t ih =>
    intro st h hc
    have ht : ∀ p, ApiCall.custom_algorithm p ∈ t → p.valid b = true :=
      fun p hp => hc p (List.mem_cons_of_mem _ hp)
    show (run_calls b (ApiCall.apply b st c) t).oqs_randombytes_algorithm.valid b = true
    refine ih _ ?_ ht
    cases c with
    | switch_algorithm algorithm => exact switch_algorithm_valid b st algorithm h
    | custom_algorithm p => exact hc p (List.mem_cons_self _ _)
    | randombytes random_array bytes_to_read =>
      simp only [ApiCall.apply, OQS_randombytes]
      split_ifs <;> exact h

theorem initial_valid (b : Build) : (DispatchState.initial b).oqs_randombytes_algorithm.valid b
    = true := by
  unfold DispatchState.initial
  split_ifs with h
  · exact h
  · rfl

theorem randombytes_each_bound (f : FnPtr) (hf : f ≠ .null) (reqs : List (Nat × Nat)) :
    OQS_randombytes_each ⟨f⟩ reqs
      = (⟨f⟩, reqs.map (fun q => some ⟨f, q.1, q.2⟩)) := by
  induction reqs with
  | nil => rfl
  | cons q t ih =>
    obtain ⟨random_array, bytes_to_read⟩ := q
    simp [OQS_randombytes_each, OQS_randombytes, hf, ih]

/-! ## Lemmas: `OQS_randombytes_openssl` as a whole -/

theorem size_t_to_int_fits (n : Nat) (h : n ≤ INT_MAX) :
    SIZE_T_TO_INT_OR_EXIT n = some (n : Int) := by
  simp [SIZE_T_TO_INT_OR_EXIT, h]

/-- For a length that fits in `int`: the trace the OpenSSL source leaves is the trace of the
readiness loop, then the one `RAND_bytes` invocation, then the diagnostic if it failed. -/
theorem openssl_trace (env : Env) (w : World) (random_array bytes_to_read : Nat)
    (h : bytes_to_read ≤ INT_MAX) :
    (OQS_randombytes_openssl env w random_array bytes_to_read).world.trace
      = (OQS_randombytes_openssl_loop env w OQS_RAND_POLL_RETRY).trace
        ++ [.RAND_bytes random_array (bytes_to_read : Int)
            (env.RAND_bytes (OQS_randombytes_openssl_loop env w OQS_RAND_POLL_RETRY).trace
              random_array (bytes_to_read : Int))]
        ++ (if env.RAND_bytes (OQS_randombytes_openssl_loop env w OQS_RAND_POLL_RETRY).trace
              random_array (bytes_to_read : Int) ≠ 1
            then [.fprintf_stderr "No OpenSSL randomness retrieved. DRBG available?\n"]
            else []) := by
  unfold OQS_randombytes_openssl
  rw [size_t_to_int_fits _ h]
  simp only [RAND_bytes_fst]
  split_ifs with h1 <;> simp

theorem openssl_outcome (env : Env) (w : World) (random_array bytes_to_read : Nat)
    (h : bytes_to_read ≤ INT_MAX) :
    (OQS_randombytes_openssl env w random_array bytes_to_read).outcome
      = if env.RAND_bytes (OQS_randombytes_openssl_loop env w OQS_RAND_POLL_RETRY).trace
            random_array (bytes_to_read : Int) ≠ 1
        then .exited EXIT_FAILURE else .returned := by
  unfold OQS_randombytes_openssl
  rw [size_t_to_int_fits _ h]
  simp only [RAND_bytes_fst]
  split_ifs with h1 <;> rfl

/-- For every behaviour of the library the readiness loop ends, and one call of the OpenSSL
source invokes `RAND_poll` at most 5 times. -/
theorem openssl_poll_bound (env : Env) (mem : Mem) (random_array bytes_to_read : Nat) :
    poll_count (OQS_randombytes_openssl env (World.start mem)
      random_array bytes_to_read).world.trace ≤ 5 := by
  by_cases h : bytes_to_read ≤ INT_MAX
  · rw [openssl_trace env _ _ _ h]
    obtain ⟨-, h2, -⟩ := openssl_loop_spec env 4 OQS_RAND_POLL_RETRY (World.start mem) rfl
    simp only [poll_count_append]
    have h3 : poll_count (World.start mem).trace = 0 := rfl
    have h4 : ∀ x y z, poll_count [Prim.RAND_bytes x y z] = 0 := fun _ _ _ => rfl
    rw [h4]
    split_ifs
    · have h5 : ∀ x, poll_count [Prim.fprintf_stderr x] = 0 := fun _ => rfl
      rw [h5]
      omega
    · have h5 : poll_count [] = 0 := rfl
      rw [h5]
      omega
  · have hx : (OQS_randombytes_openssl env (World.start mem) random_array bytes_to_read)
        = exit_failure (World.start mem) := by
      simp [OQS_randombytes_openssl, SIZE_T_TO_INT_OR_EXIT, h]
    rw [hx]
    simp [World.start, poll_count]

/-- When `RAND_status` never reports 1, one call of the OpenSSL source with a length that
fits in `int` invokes `RAND_poll` exactly 5 times. -/
theorem openssl_poll_never_ready (env : Env) (hne : ∀ t, env.RAND_status t ≠ 1) (mem : Mem)
    (random_array bytes_to_read : Nat) (h : bytes_to_read ≤ INT_MAX) :
    poll_count (OQS_randombytes_openssl env (World.start mem)
      random_array bytes_to_read).world.trace = 5 := by
  rw [openssl_trace env _ _ _ h]
  obtain ⟨-, -, h2⟩ := openssl_loop_spec env 4 OQS_RAND_POLL_RETRY (World.start mem) rfl
  simp only [poll_count_append]
  have h3 : poll_count (World.start mem).trace = 0 := rfl
  have h4 : ∀ x y z, poll_count [Prim.RAND_bytes x y z] = 0 := fun _ _ _ => rfl
  rw [h4, h2 hne, h3]
  split_ifs
  · have h5 : ∀ x, poll_count [Prim.fprintf_stderr x] = 0 := fun _ => rfl
    rw [h5]
  · have h5 : poll_count [] = 0 := rfl
    rw [h5]

/-! ## Lemmas: the Windows variant -/

/-- A length below 2^32 reaches `CryptGenRandom` unchanged. -/
theorem win32_request_small (env : Env) (mem : Mem) (random_array bytes_to_read : Nat)
    (h : bytes_to_read < 2 ^ 32) (ha : env.CryptAcquireContext [] ≠ 0) :
    genrandom_requests (OQS_randombytes_system_win32 env (World.start mem)
      random_array bytes_to_read).world.trace = [(bytes_to_read, random_array)] := by
  have hd : DWORD_cast bytes_to_read = bytes_to_read := Nat.mod_eq_of_lt h
  unfold OQS_randombytes_system_win32
  simp only [CryptAcquireContext_fst, World.start, ha, ↓reduceIte, CryptGenRandom_fst,
    CryptAcquireContext_trace, List.nil_append, hd]
  split_ifs <;> simp [genrandom_requests]

/-! ## The claims -/

/-- C1 (fail-stop).  In every build variant of `OQS_randombytes_system`, so in the Windows,
getentropy and file-based ones, for every buffer, every length and every behaviour of the
primitives: if some primitive invocation made by the call reports failure
(`CryptAcquireContext` or `CryptGenRandom` false, a `getentropy` chunk non-zero, `fopen`
null, `fread` short, the stream error flag set), the call ends in `exit(EXIT_FAILURE)` and
does not return. -/
theorem C1_fail_stop (b : Build) (env : Env) (mem : Mem) (random_array bytes_to_read : Nat)
    (e : Prim)
    (he : e ∈ (OQS_randombytes_system b env (World.start mem)
      random_array bytes_to_read).world.trace)
    (hf : e.reportsFailure = true) :
    (OQS_randombytes_system b env (World.start mem) random_array bytes_to_read).outcome
      = .exited EXIT_FAILURE := by
  rcases failStop_system b env (World.start mem) random_array bytes_to_read e he hf with h | h
  · simp [World.start] at h
  · exact h

/-- C2 (chunking is transparent).  In the getentropy variant, for every length `L`, every
buffer address and every initial memory, when every `getentropy` call made succeeds (no
invocation of the call reports failure) the call returns and the memory it leaves is the one
a single request of `L` bytes leaves: offset `i < L` of the buffer holds byte `i` of the
stream, every other address is unchanged. -/
theorem C2_chunking_transparent (env : Env) (mem : Mem) (random_array L : Nat)
    (hok : ∀ e ∈ (OQS_randombytes_system_getentropy env (World.start mem)
      random_array L).world.trace, e.reportsFailure = false) :
    (OQS_randombytes_system_getentropy env (World.start mem) random_array L).outcome
      = .returned ∧
    (OQS_randombytes_system_getentropy env (World.start mem) random_array L).world.mem
      = single_unbounded_request env.stream mem random_array L ∧
    (∀ i, i < L →
      (OQS_randombytes_system_getentropy env (World.start mem) random_array L).world.mem
        (random_array + i) = env.stream i) ∧
    (∀ a, ¬ (random_array ≤ a ∧ a < random_array + L) →
      (OQS_randombytes_system_getentropy env (World.start mem) random_array L).world.mem a
        = mem a) := by
  obtain ⟨h1, h3, -⟩ := getentropy_variant_ok env mem random_array L hok
  refine ⟨h1, h3, ?_, ?_⟩
  · intro i hi
    rw [h3]
    have c : random_array ≤ random_array + i ∧ random_array + i < random_array + L := by omega
    simp only [single_unbounded_request, c, and_self, ↓reduceIte, Nat.add_sub_cancel_left]
  · intro a ha
    rw [h3]
    simp only [single_unbounded_request, ha, ↓reduceIte]

/-- C3 (the chunk requests).  In the getentropy variant, for every length `L`, when every
chunk call made succeeds (no invocation of the call reports failure) the invocations made
are exactly the `getentropy` requests of the chunk plan: chunks of 256 bytes at offsets 0, 256, 512, ... and one last chunk of what remains.
No request exceeds 256 bytes, every request but the last is of 256 bytes, each request
starts where the previous one ended, and the sizes sum to `L`.  For `L = 1000` the sizes are
256, 256, 256, 232; for `L = 100` there is one request, of 100 bytes. -/
theorem C3_chunk_requests (env : Env) (mem : Mem) (random_array L : Nat)
    (hok : ∀ e ∈ (OQS_randombytes_system_getentropy env (World.start mem)
      random_array L).world.trace, e.reportsFailure = false) :
    (OQS_randombytes_system_getentropy env (World.start mem) random_array L).world.trace
      = (chunked_requests random_array L).map (fun q => Prim.getentropy q.1 q.2 0) ∧
    getentropy_requests
        (OQS_randombytes_system_getentropy env (World.start mem) random_array L).world.trace
      = chunked_requests random_array L ∧
    (∀ q ∈ getentropy_requests
        (OQS_randombytes_system_getentropy env (World.start mem) random_array L).world.trace,
      q.2 ≤ 256) ∧
    (∀ q ∈ (getentropy_requests
        (OQS_randombytes_system_getentropy env (World.start mem) random_array L).world.trace
        ).dropLast, q.2 = 256) ∧
    contiguous_from random_array (getentropy_requests
        (OQS_randombytes_system_getentropy env (World.start mem) random_array L).world.trace) ∧
    ((getentropy_requests
        (OQS_randombytes_system_getentropy env (World.start mem) random_array L).world.trace
        ).map Prod.snd).sum = L ∧
    (L = 1000 → (getentropy_requests
        (OQS_randombytes_system_getentropy env (World.start mem) random_array L).world.trace
        ).map Prod.snd = [256, 256, 256, 232]) ∧
    (L = 100 → (getentropy_requests
        (OQS_randombytes_system_getentropy env (World.start mem) random_array L).world.trace
        ).map Prod.snd = [100]) := by
  obtain ⟨-, -, ht⟩ := getentropy_variant_ok env mem random_array L hok
  have hr : getentropy_requests
      (OQS_randombytes_system_getentropy env (World.start mem) random_array L).world.trace
      = chunked_requests random_array L := by
    rw [ht, getentropy_requests_map]
  rw [hr]
  refine ⟨ht, rfl, chunked_requests_le L random_array, ?_,
    chunked_requests_contiguous L random_array, chunked_requests_sum L random_array, ?_, ?_⟩
  · intro q hq
    simp only [chunked_requests, List.dropLast_concat, List.mem_map, List.mem_range] at hq
    obtain ⟨i, -, rfl⟩ := hq
    rfl
  · rintro rfl
    simp [chunked_requests, List.range_succ]
  · rintro rfl
    simp [chunked_requests]

/-- C1 at three failing runs: the third `getentropy` chunk of a 1000-byte request fails,
`CryptGenRandom` fails, `fread` comes one byte short. -/
theorem C1_fail_stop_witness :
    (Prim.getentropy 512 256 (-1) ∈ (OQS_randombytes_system Build.unix_getentropy
        Env.third_getentropy_fails (World.start Mem.zero) 0 1000).world.trace ∧
      (Prim.getentropy 512 256 (-1)).reportsFailure = true ∧
      (OQS_randombytes_system Build.unix_getentropy Env.third_getentropy_fails
        (World.start Mem.zero) 0 1000).outcome = .exited EXIT_FAILURE) ∧
    (Prim.CryptGenRandom 16 0 0 ∈ (OQS_randombytes_system Build.win64
        Env.genrandom_fails (World.start Mem.zero) 0 16).world.trace ∧
      (Prim.CryptGenRandom 16 0 0).reportsFailure = true ∧
      (OQS_randombytes_system Build.win64 Env.genrandom_fails
        (World.start Mem.zero) 0 16).outcome = .exited EXIT_FAILURE) ∧
    (Prim.fread 0 1 16 15 ∈ (OQS_randombytes_system Build.unix_openssl
        Env.short_read (World.start Mem.zero) 0 16).world.trace ∧
      (Prim.fread 0 1 16 15).reportsFailure = true ∧
      (OQS_randombytes_system Build.unix_openssl Env.short_read
        (World.start Mem.zero) 0 16).outcome = .exited EXIT_FAILURE) := by
  have h1 : Prim.getentropy 512 256 (-1) ∈ (OQS_randombytes_system Build.unix_getentropy
      Env.third_getentropy_fails (World.start Mem.zero) 0 1000).world.trace := by
    simp [OQS_randombytes_system, Build.unix_getentropy, OQS_randombytes_system_getentropy,
      Env.third_getentropy_fails, Env.succeeding, World.start]
  have h2 : Prim.CryptGenRandom 16 0 0 ∈ (OQS_randombytes_system Build.win64
      Env.genrandom_fails (World.start Mem.zero) 0 16).world.trace := by
    simp [OQS_randombytes_system, Build.win64, OQS_randombytes_system_win32,
      Env.genrandom_fails, Env.succeeding, World.start, DWORD_cast]
  have h3 : Prim.fread 0 1 16 15 ∈ (OQS_randombytes_system Build.unix_openssl
      Env.short_read (World.start Mem.zero) 0 16).world.trace := by
    simp [OQS_randombytes_system, Build.unix_openssl, OQS_randombytes_system_urandom,
      Env.short_read, Env.succeeding, World.start]
  exact ⟨⟨h1, rfl, C1_fail_stop _ _ _ _ _ _ h1 rfl⟩, ⟨h2, rfl, C1_fail_stop _ _ _ _ _ _ h2 rfl⟩,
    ⟨h3, rfl, C1_fail_stop _ _ _ _ _ _ h3 rfl⟩⟩

/-- C2 at a 600-byte request to the buffer at address 8. -/
theorem C2_chunking_transparent_witness :
    (∀ e ∈ (OQS_randombytes_system_getentropy Env.succeeding (World.start Mem.zero)
      8 600).world.trace, e.reportsFailure = false) ∧
    (OQS_randombytes_system_getentropy Env.succeeding (World.start Mem.zero) 8 600).outcome
      = .returned ∧
    (OQS_randombytes_system_getentropy Env.succeeding (World.start Mem.zero) 8 600).world.mem
      = single_unbounded_request Env.succeeding.stream Mem.zero 8 600 ∧
    (OQS_randombytes_system_getentropy Env.succeeding (World.start Mem.zero) 8 600).world.mem
      (8 + 599) = Env.succeeding.stream 599 ∧
    (OQS_randombytes_system_getentropy Env.succeeding (World.start Mem.zero) 8 600).world.mem
      608 = Mem.zero 608 :=
  have h : ∀ e ∈ (OQS_randombytes_system_getentropy Env.succeeding (World.start Mem.zero)
      8 600).world.trace, e.reportsFailure = false := by
    simp [OQS_randombytes_system_getentropy, Env.succeeding, World.start, Prim.reportsFailure]
  ⟨h, (C2_chunking_transparent Env.succeeding Mem.zero 8 600 h).1,
    (C2_chunking_transparent Env.succeeding Mem.zero 8 600 h).2.1,
    (C2_chunking_transparent Env.succeeding Mem.zero 8 600 h).2.2.1 599 (by decide),
    (C2_chunking_transparent Env.succeeding Mem.zero 8 600 h).2.2.2 608 (by decide)⟩

/-- C3 at a 1000-byte request: four requests, of 256, 256, 256 and 232 bytes. -/
theorem C3_chunk_requests_witness :
    (∀ e ∈ (OQS_randombytes_system_getentropy Env.succeeding (World.start Mem.zero)
      0 1000).world.trace, e.reportsFailure = false) ∧
    getentropy_requests
        (OQS_randombytes_system_getentropy Env.succeeding (World.start Mem.zero) 0 1000
          ).world.trace
      = [(0, 256), (256, 256), (512, 256), (768, 232)] ∧
    (getentropy_requests
        (OQS_randombytes_system_getentropy Env.succeeding (World.start Mem.zero) 0 1000
          ).world.trace).map Prod.snd = [256, 256, 256, 232] :=
  have h : ∀ e ∈ (OQS_randombytes_system_getentropy Env.succeeding (World.start Mem.zero)
      0 1000).world.trace, e.reportsFailure = false := by
    simp [OQS_randombytes_system_getentropy, Env.succeeding, World.start, Prim.reportsFailure]
  ⟨h, (C3_chunk_requests Env.succeeding Mem.zero 0 1000 h).2.1.trans (by decide),
    (C3_chunk_requests Env.succeeding Mem.zero 0 1000 h).2.2.2.2.2.2.1 rfl⟩

/-- C4 (a failed switch changes nothing).  For every build, every prior binding and every
name that equals neither identifier up to ASCII letter case, and for every name that equals
the OpenSSL identifier when `OQS_USE_OPENSSL` is not defined,
`OQS_randombytes_switch_algorithm` returns `OQS_ERROR` and leaves the state as it was; a
following `OQS_randombytes` does what it did before, so it calls the prior source with the
buffer and the length it is given. -/
theorem C4_switch_failure (b : Build) (st : DispatchState) (algorithm : CString)
    (h : (¬ eq_ignoring_case OQS_RAND_alg_system algorithm ∧
          ¬ eq_ignoring_case OQS_RAND_alg_openssl algorithm) ∨
         (eq_ignoring_case OQS_RAND_alg_openssl algorithm ∧ b.OQS_USE_OPENSSL = false)) :
    OQS_randombytes_switch_algorithm b st algorithm = (.OQS_ERROR, st) ∧
    (∀ random_array bytes_to_read,
      OQS_randombytes (OQS_randombytes_switch_algorithm b st algorithm).2
          random_array bytes_to_read
        = OQS_randombytes st random_array bytes_to_read) ∧
    (st.oqs_randombytes_algorithm ≠ .null → ∀ random_array bytes_to_read,
      OQS_randombytes (OQS_randombytes_switch_algorithm b st algorithm).2
          random_array bytes_to_read
        = (st, some ⟨st.oqs_randombytes_algorithm, random_array, bytes_to_read⟩)) := by
  have hs : OQS_randombytes_switch_algorithm b st algorithm = (.OQS_ERROR, st) := by
    unfold OQS_randombytes_switch_algorithm
    rcases h with ⟨h1, h2⟩ | ⟨h1, h2⟩
    · have e1 : ¬ (0 = strcasecmp OQS_RAND_alg_system algorithm) :=
        fun e => h1 ((strcasecmp_eq_zero _ _).1 e.symm)
      have e2 : ¬ (0 = strcasecmp OQS_RAND_alg_openssl algorithm) :=
        fun e => h2 ((strcasecmp_eq_zero _ _).1 e.symm)
      simp only [e1, e2, ↓reduceIte]
    · have e1 : ¬ (0 = strcasecmp OQS_RAND_alg_system algorithm) := by
        intro e
        have e3 : eq_ignoring_case OQS_RAND_alg_system algorithm :=
          (strcasecmp_eq_zero _ _).1 e.symm
        exact system_ne_openssl (e3.trans h1.symm)
      have e2 : 0 = strcasecmp OQS_RAND_alg_openssl algorithm :=
        ((strcasecmp_eq_zero _ _).2 h1).symm
      simp only [e1, ↓reduceIte, ← e2, h2, Bool.false_eq_true]
  refine ⟨hs, ?_, ?_⟩
  · intro random_array bytes_to_read
    rw [hs]
  · intro hp random_array bytes_to_read
    rw [hs]
    simp [OQS_randombytes, hp]

/-- C4 at an unknown name in a build with OpenSSL, and at `"OpenSSL"` in a build without. -/
theorem C4_switch_failure_witness :
    ((¬ eq_ignoring_case OQS_RAND_alg_system (cstr "NIST-KAT") ∧
        ¬ eq_ignoring_case OQS_RAND_alg_openssl (cstr "NIST-KAT")) ∨
      (eq_ignoring_case OQS_RAND_alg_openssl (cstr "NIST-KAT") ∧
        Build.unix_openssl.OQS_USE_OPENSSL = false)) ∧
    OQS_randombytes_switch_algorithm Build.unix_openssl ⟨.other 7⟩ (cstr "NIST-KAT")
      = (.OQS_ERROR, ⟨.other 7⟩) ∧
    ((¬ eq_ignoring_case OQS_RAND_alg_system (cstr "OpenSSL") ∧
        ¬ eq_ignoring_case OQS_RAND_alg_openssl (cstr "OpenSSL")) ∨
      (eq_ignoring_case OQS_RAND_alg_openssl (cstr "OpenSSL") ∧
        Build.unix_getentropy.OQS_USE_OPENSSL = false)) ∧
    OQS_randombytes_switch_algorithm Build.unix_getentropy ⟨.other 7⟩ (cstr "OpenSSL")
      = (.OQS_ERROR, ⟨.other 7⟩) ∧
    OQS_randombytes
        (OQS_randombytes_switch_algorithm Build.unix_getentropy ⟨.other 7⟩ (cstr "OpenSSL")).2
        4096 48
      = (⟨.other 7⟩, some ⟨.other 7, 4096, 48⟩) :=
  ⟨by decide,
    (C4_switch_failure Build.unix_openssl ⟨.other 7⟩ (cstr "NIST-KAT") (by decide)).1,
    by decide,
    (C4_switch_failure Build.unix_getentropy ⟨.other 7⟩ (cstr "OpenSSL") (by decide)).1,
    (C4_switch_failure Build.unix_getentropy ⟨.other 7⟩ (cstr "OpenSSL") (by decide)).2.2
      (by decide) 4096 48⟩

/-- C5 (a successful switch rebinds).  For every build, every prior binding (a custom one
included) and every name equal up to ASCII letter case to the system identifier, or to the
OpenSSL identifier when `OQS_USE_OPENSSL` is defined, `OQS_randombytes_switch_algorithm`
returns `OQS_SUCCESS` and binds the dispatch pointer to that backend, and a following
`OQS_randombytes` calls that backend with the buffer and the length it is given. -/
theorem C5_switch_success (b : Build) (st : DispatchState) (algorithm : CString)
    (backend : FnPtr)
    (h : (backend = .OQS_randombytes_system ∧
          eq_ignoring_case OQS_RAND_alg_system algorithm) ∨
         (backend = .OQS_randombytes_openssl ∧ b.OQS_USE_OPENSSL = true ∧
          eq_ignoring_case OQS_RAND_alg_openssl algorithm)) :
    OQS_randombytes_switch_algorithm b st algorithm = (.OQS_SUCCESS, ⟨backend⟩) ∧
    (∀ random_array bytes_to_read,
      OQS_randombytes (OQS_randombytes_switch_algorithm b st algorithm).2
          random_array bytes_to_read
        = (⟨backend⟩, some ⟨backend, random_array, bytes_to_read⟩)) := by
  have hs : OQS_randombytes_switch_algorithm b st algorithm = (.OQS_SUCCESS, ⟨backend⟩) := by
    unfold OQS_randombytes_switch_algorithm
    rcases h with ⟨rfl, h1⟩ | ⟨rfl, h2, h1⟩
    · have e1 : 0 = strcasecmp OQS_RAND_alg_system algorithm :=
        ((strcasecmp_eq_zero _ _).2 h1).symm
      simp only [← e1, ↓reduceIte]
    · have e1 : ¬ (0 = strcasecmp OQS_RAND_alg_system algorithm) := by
        intro e
        have e3 : eq_ignoring_case OQS_RAND_alg_system algorithm :=
          (strcasecmp_eq_zero _ _).1 e.symm
        exact system_ne_openssl (e3.trans h1.symm)
      have e2 : 0 = strcasecmp OQS_RAND_alg_openssl algorithm :=
        ((strcasecmp_eq_zero _ _).2 h1).symm
      simp only [e1, ↓reduceIte, ← e2, h2]
  refine ⟨hs, ?_⟩
  intro random_array bytes_to_read
  rw [hs]
  rcases h with ⟨rfl, -⟩ | ⟨rfl, -, -⟩ <;> simp [OQS_randombytes]

/-- C5 at `"SYSTEM"`, `"System"`, `"system"` and `"OpenSSL"`, from a custom binding. -/
theorem C5_switch_success_witness :
    (eq_ignoring_case OQS_RAND_alg_system (cstr "SYSTEM") ∧
      OQS_randombytes_switch_algorithm Build.unix_openssl ⟨.other 7⟩ (cstr "SYSTEM")
        = (.OQS_SUCCESS, ⟨.OQS_randombytes_system⟩)) ∧
    (eq_ignoring_case OQS_RAND_alg_system (cstr "System") ∧
      OQS_randombytes_switch_algorithm Build.unix_openssl ⟨.other 7⟩ (cstr "System")
        = (.OQS_SUCCESS, ⟨.OQS_randombytes_system⟩)) ∧
    (eq_ignoring_case OQS_RAND_alg_system (cstr "system") ∧
      OQS_randombytes
          (OQS_randombytes_switch_algorithm Build.unix_openssl ⟨.other 7⟩ (cstr "system")).2
          4096 48
        = (⟨.OQS_randombytes_system⟩, some ⟨.OQS_randombytes_system, 4096, 48⟩)) ∧
    (Build.unix_openssl.OQS_USE_OPENSSL = true ∧
      eq_ignoring_case OQS_RAND_alg_openssl (cstr "OpenSSL") ∧
      OQS_randombytes_switch_algorithm Build.unix_openssl ⟨.other 7⟩ (cstr "OpenSSL")
        = (.OQS_SUCCESS, ⟨.OQS_randombytes_openssl⟩)) :=
  ⟨⟨by decide, (C5_switch_success Build.unix_openssl ⟨.other 7⟩ (cstr "SYSTEM")
      .OQS_randombytes_system (Or.inl ⟨rfl, by decide⟩)).1⟩,
    ⟨by decide, (C5_switch_success Build.unix_openssl ⟨.other 7⟩ (cstr "System")
      .OQS_randombytes_system (Or.inl ⟨rfl, by decide⟩)).1⟩,
    ⟨by decide, (C5_switch_success Build.unix_openssl ⟨.other 7⟩ (cstr "system")
      .OQS_randombytes_system (Or.inl ⟨rfl, by decide⟩)).2 4096 48⟩,
    ⟨rfl, by decide, (C5_switch_success Build.unix_openssl ⟨.other 7⟩ (cstr "OpenSSL")
      .OQS_randombytes_openssl (Or.inr ⟨rfl, rfl, by decide⟩)).1⟩⟩

/-- C6 (a custom source stays bound).  For every non-null function pointer `f` and every
prior binding, after `OQS_randombytes_custom_algorithm(f)` every one of any number of
consecutive `OQS_randombytes(buf, len)` calls makes exactly one call, to `f`, with `buf`
and `len`, and the binding is still `f` afterwards. -/
theorem C6_custom_binding (st : DispatchState) (f : FnPtr) (hf : f ≠ .null)
    (requests : List (Nat × Nat)) :
    OQS_randombytes_custom_algorithm st f = ⟨f⟩ ∧
    OQS_randombytes_each (OQS_randombytes_custom_algorithm st f) requests
      = (⟨f⟩, requests.map (fun q => some ⟨f, q.1, q.2⟩)) ∧
    (∀ random_array bytes_to_read,
      OQS_randombytes (OQS_randombytes_custom_algorithm st f) random_array bytes_to_read
        = (⟨f⟩, some ⟨f, random_array, bytes_to_read⟩)) := by
  refine ⟨rfl, randombytes_each_bound f hf requests, ?_⟩
  intro random_array bytes_to_read
  simp [OQS_randombytes, OQS_randombytes_custom_algorithm, hf]

/-- C6 at three consecutive calls after binding the caller's function at address 7. -/
theorem C6_custom_binding_witness :
    FnPtr.other 7 ≠ FnPtr.null ∧
    OQS_randombytes_each
        (OQS_randombytes_custom_algorithm ⟨.OQS_randombytes_system⟩ (.other 7))
        [(4096, 48), (8192, 0), (4096, 1000)]
      = (⟨.other 7⟩, [some ⟨.other 7, 4096, 48⟩, some ⟨.other 7, 8192, 0⟩,
          some ⟨.other 7, 4096, 1000⟩]) :=
  ⟨by decide, (C6_custom_binding ⟨.OQS_randombytes_system⟩ (.other 7) (by decide)
    [(4096, 48), (8192, 0), (4096, 1000)]).2.1⟩

/-- C7 as stated fails: `OQS_randombytes_custom_algorithm(NULL)` is a call a caller can make,
and it leaves the dispatch pointer null. -/
theorem C7_null_counterexample :
    (run_calls Build.unix_getentropy (DispatchState.initial Build.unix_getentropy)
        [.custom_algorithm .null]).oqs_randombytes_algorithm = .null ∧
    (run_calls Build.unix_getentropy (DispatchState.initial Build.unix_getentropy)
        [.custom_algorithm .null]).oqs_randombytes_algorithm.valid Build.unix_getentropy
      = false ∧
    (OQS_randombytes (run_calls Build.unix_getentropy
        (DispatchState.initial Build.unix_getentropy) [.custom_algorithm .null]) 4096 48).2
      = none := by
  decide

/-- C7, amended (the dispatch invariant).  Starting from the build-time default binding,
after every finite sequence of `OQS_randombytes_switch_algorithm` calls with any name,
`OQS_randombytes_custom_algorithm` calls whose argument is a non-null pointer to a function
of the build, and `OQS_randombytes` calls, the dispatch pointer is a non-null pointer to a
function of the build. -/
theorem C7_dispatch_invariant (b : Build) (calls : List ApiCall)
    (h : ∀ p, ApiCall.custom_algorithm p ∈ calls → p.valid b = true) :
    (run_calls b (DispatchState.initial b) calls).oqs_randombytes_algorithm.valid b = true ∧
    (run_calls b (DispatchState.initial b) calls).oqs_randombytes_algorithm ≠ .null := by
  have hv := run_calls_valid b calls (DispatchState.initial b) (initial_valid b) h
  refine ⟨hv, ?_⟩
  intro hn
  rw [hn] at hv
  exact Bool.false_ne_true hv

/-- C7, amended, at a sequence of four calls. -/
theorem C7_dispatch_invariant_witness :
    (∀ p, ApiCall.custom_algorithm p ∈
        [ApiCall.switch_algorithm (cstr "OpenSSL"), .custom_algorithm (.other 7),
          .randombytes 4096 48, .switch_algorithm (cstr "bogus")] →
      p.valid Build.unix_getentropy = true) ∧
    (run_calls Build.unix_getentropy (DispatchState.initial Build.unix_getentropy)
        [.switch_algorithm (cstr "OpenSSL"), .custom_algorithm (.other 7),
          .randombytes 4096 48, .switch_algorithm (cstr "bogus")]
      ).oqs_randombytes_algorithm.valid Build.unix_getentropy = true :=
  have h : ∀ p, ApiCall.custom_algorithm p ∈
      [ApiCall.switch_algorithm (cstr "OpenSSL"), .custom_algorithm (.other 7),
        .randombytes 4096 48, .switch_algorithm (cstr "bogus")] →
      p.valid Build.unix_getentropy = true := by
    intro p hp
    simp only [List.mem_cons, List.mem_singleton, ApiCall.custom_algorithm.injEq,
      List.not_mem_nil, or_false, false_or, reduceCtorEq] at hp
    rw [hp]
    rfl
  ⟨h, (C7_dispatch_invariant Build.unix_getentropy _ h).1⟩

/-- C8 (bounded reseed) fails on the code.  When `RAND_status` reports not-ready at every
check, one call of `OQS_randombytes_openssl` invokes `RAND_poll` 5 times, which is more than
`OQS_RAND_POLL_RETRY = 3`: the test `rep-- >= 0` lets the loop body run for
`rep = 3, 2, 1, 0, -1`. -/
theorem C8_five_polls_when_never_ready :
    poll_count (OQS_randombytes_openssl Env.never_ready (World.start Mem.zero) 4096 32
      ).world.trace = 5 ∧
    OQS_RAND_POLL_RETRY = 3 ∧
    ¬ ((poll_count (OQS_randombytes_openssl Env.never_ready (World.start Mem.zero) 4096 32
      ).world.trace : Int) ≤ OQS_RAND_POLL_RETRY) := by
  have h : poll_count (OQS_randombytes_openssl Env.never_ready (World.start Mem.zero) 4096 32
      ).world.trace = 5 :=
    openssl_poll_never_ready Env.never_ready (fun _ => by simp [Env.never_ready])
      Mem.zero 4096 32 (by decide)
  refine ⟨h, rfl, ?_⟩
  rw [h]
  decide

/-- C9 (one generation call, fail-stop).  In `OQS_randombytes_openssl`, for every length that
fits in `int` and every behaviour of `RAND_status`, `RAND_poll` and `RAND_bytes`, the call
invokes `RAND_bytes` exactly once, with the caller's buffer and the requested length; it
returns to the caller exactly when that invocation reported 1, and ends in
`exit(EXIT_FAILURE)` on every other value. -/
theorem C9_rand_bytes_once (env : Env) (mem : Mem) (random_array bytes_to_read : Nat)
    (h : bytes_to_read ≤ INT_MAX) :
    ∃ ret : Int,
      rand_bytes_calls (OQS_randombytes_openssl env (World.start mem)
          random_array bytes_to_read).world.trace
        = [(random_array, (bytes_to_read : Int), ret)] ∧
      ((OQS_randombytes_openssl env (World.start mem) random_array bytes_to_read).outcome
          = .returned ↔ ret = 1) ∧
      (ret ≠ 1 →
        (OQS_randombytes_openssl env (World.start mem) random_array bytes_to_read).outcome
          = .exited EXIT_FAILURE) := by
  refine ⟨env.RAND_bytes
    (OQS_randombytes_openssl_loop env (World.start mem) OQS_RAND_POLL_RETRY).trace
    random_array (bytes_to_read : Int), ?_, ?_, ?_⟩
  · rw [openssl_trace env _ _ _ h]
    obtain ⟨h1, -, -⟩ := openssl_loop_spec env 4 OQS_RAND_POLL_RETRY (World.start mem) rfl
    simp only [rand_bytes_calls_append, h1]
    split_ifs <;> simp [rand_bytes_calls, World.start]
  · rw [openssl_outcome env _ _ _ h]
    split_ifs with h1
    · simp only [reduceCtorEq, false_iff]
      exact h1
    · simp only [true_iff]
      exact not_not.1 h1
  · intro hr
    rw [openssl_outcome env _ _ _ h]
    simp only [hr, ne_eq, not_false_eq_true, ↓reduceIte]

/-- C9 at a 32-byte request when the generator is never ready and `RAND_bytes` fails. -/
theorem C9_rand_bytes_once_witness :
    32 ≤ INT_MAX ∧
    ∃ ret : Int,
      rand_bytes_calls (OQS_randombytes_openssl Env.no_randomness (World.start Mem.zero)
          4096 32).world.trace = [(4096, (32 : Int), ret)] ∧
      ((OQS_randombytes_openssl Env.no_randomness (World.start Mem.zero) 4096 32).outcome
          = .returned ↔ ret = 1) ∧
      (ret ≠ 1 →
        (OQS_randombytes_openssl Env.no_randomness (World.start Mem.zero) 4096 32).outcome
          = .exited EXIT_FAILURE) :=
  ⟨by decide, C9_rand_bytes_once Env.no_randomness Mem.zero 4096 32 (by decide)⟩

/-- C10 (the Windows request is the requested length) fails on the code.  For
`bytes_to_read = 2^32`, a `size_t` of a 64-bit Windows build, with both primitives
succeeding, the one `CryptGenRandom` call asks for `(DWORD) 2^32 = 0` bytes, the call
returns to the caller, and the buffer is as it was. -/
theorem C10_dword_cast_truncates :
    4294967296 < 2 ^ 64 ∧
    genrandom_requests (OQS_randombytes_system Build.win64 Env.succeeding
        (World.start Mem.zero) 4096 4294967296).world.trace = [(0, 4096)] ∧
    (OQS_randombytes_system Build.win64 Env.succeeding
        (World.start Mem.zero) 4096 4294967296).outcome = .returned ∧
    (∀ a, (OQS_randombytes_system Build.win64 Env.succeeding
        (World.start Mem.zero) 4096 4294967296).world.mem a = Mem.zero a) := by
  refine ⟨by decide, ?_, ?_, ?_⟩
  · simp [OQS_randombytes_system, Build.win64, OQS_randombytes_system_win32,
      Env.succeeding, World.start, DWORD_cast, genrandom_requests]
  · simp [OQS_randombytes_system, Build.win64, OQS_randombytes_system_win32,
      Env.succeeding, DWORD_cast]
  · intro a
    simp [OQS_randombytes_system, Build.win64, OQS_randombytes_system_win32,
      Env.succeeding, World.start, DWORD_cast, CryptAcquireContext, CryptGenRandom,
      CryptReleaseContext, World.log, World.deliver]

end OQS
